import Mathlib

set_option maxRecDepth 8000

/-!
Verification of the CHIP-8 emulator core (`cpu.go`, `graphics.go` of
ejholmes/chip8).

The Go data is embedded shallowly:

* Go fixed-size arrays (`[4096]byte`, `[16]byte`, `[16]uint16`,
  `[2048]byte`) become total maps `Nat → Nat` read by application and
  written with `upd`.  Their lengths are static in Go, so the runtime
  bounds check of an indexing expression compares the index against a
  constant (16, 4096 or 2048); wherever that check can actually fail the
  embedding tests the same bound explicitly and produces
  `Outcome.fault` (the Go panic).  Every other index expression is
  masked to `< 16` or `< 256` by construction and can never fail.
* Machine integers become `Nat` with explicit `% 256` (byte) and
  `% 65536` (uint16) at the operations where Go wraps.
* Bit masks on a 16-bit opcode are translated arithmetically:
  `op & 0xF000` selects the high nibble, embedded as `op / 4096`;
  `(op & 0x0F00) >> 8` is `op / 256 % 16`; `(op & 0x00F0) >> 4` is
  `op / 16 % 16`; `op & 0x0FFF` is `op % 4096`; `op & 0x000F` is
  `op % 16`; `byte(op)` is `op % 256`.  For `op < 65536` these agree
  with the Go expressions bit for bit.
* The injectable random generator (`c.randByte()`) is modelled by a CPU
  field `rnd` holding the byte the generator returns.
-/

/-- Write one cell of a Go array: `upd f i v` is `f` with `f[i] = v`. -/
def upd (f : Nat → Nat) (i v : Nat) : Nat → Nat :=
  fun j => if j = i then v else f j

theorem upd_self (f : Nat → Nat) (i v : Nat) : upd f i v i = v := by
  simp [upd]

theorem upd_ne (f : Nat → Nat) {i j : Nat} (v : Nat) (h : j ≠ i) :
    upd f i v j = f j := by
  simp [upd, h]

/-- The all-zero buffer. -/
def zeros : Nat → Nat := fun _ => 0

/-- CPU state of `cpu.go`: 4096 bytes of memory, address register `I`,
program counter, 16 byte registers `V`, a 16-slot stack of return
addresses, a byte stack pointer, the graphics array `Pixels` embedded
from the `*Graphics` field, and `rnd`, the byte that the injectable
random generator (`randByteFunc`) returns. -/
structure CPU where
  Memory : Nat → Nat
  I : Nat
  PC : Nat
  V : Nat → Nat
  Stack : Nat → Nat
  SP : Nat
  Pixels : Nat → Nat
  rnd : Nat

/-- Result of `Dispatch`: a normal return (`nil` error in Go), the
`UnknownOpcode` error carrying the raw opcode, or a Go runtime panic
from an out-of-range array index. -/
inductive Outcome where
  | ok (c : CPU)
  | err (op : Nat)
  | fault

/-- Register `i` of the CPU a dispatch returned normally (0 for the
error and fault outcomes; only applied to `ok` results below). -/
def okV (o : Outcome) (i : Nat) : Nat :=
  match o with
  | Outcome.ok c => c.V i
  | _ => 0

/-- Loop body of the `Dxyn` handler in `cpu.go`.  The Go loop runs `n`
times; its body uses the constant `n` (not the loop variable) both for
the pixel address `a = s + byte(n)` and the memory read `Memory[I+n]`,
so every iteration reads and writes the same cells.  Reading
`Memory[I+n]` panics when the index reaches 4096. -/
def drawLoop : Nat → Nat → Nat → CPU → Outcome
  | 0, _, _, c => Outcome.ok c
  | k + 1, s, n, c =>
    -- the Go body names a := (s+n)%256 and p := Pixels[a] before the
    -- Memory read; both are pure, so they are inlined here
    if (c.I + n) % 65536 < 4096 then
      drawLoop k s n { c with Pixels := (upd c.Pixels ((s + n) % 256)
        (c.Memory ((c.I + n) % 65536) ^^^ c.Pixels ((s + n) % 256))) }
    else Outcome.fault

/-- Handlers for the `0x8xy?` ALU family of `Dispatch` in `cpu.go`.
In each case the flag write `c.V[0xF] = cf` happens before the final
`c.V[x] = ...` assignment, whose right-hand side is evaluated after
that write (so `x = 0xF` or `y = 0xF` alias with the flag).  A
sub-opcode with no `case` falls through the Go `switch` and returns
`nil`. -/
def alu (c : CPU) (op : Nat) : Outcome :=
  -- the Go handler names x := op/256%16, y := op/16%16, and for the
  -- arithmetic cases r (the 9-bit sum) and cf (the flag value); all are
  -- pure, so they are inlined at each occurrence.  The flag write
  -- `upd c.V 15 cf` appears inside the operand reads of the final
  -- assignment because Go evaluates them after `c.V[0xF] = cf`.
  if op % 16 = 0 then
    Outcome.ok { c with V := upd c.V (op / 256 % 16) (c.V (op / 16 % 16)) }
  else if op % 16 = 1 then
    Outcome.ok { c with V := (upd c.V (op / 256 % 16)
      (Nat.lor (c.V (op / 16 % 16)) (c.V (op / 256 % 16)))) }
  else if op % 16 = 2 then
    Outcome.ok { c with V := (upd c.V (op / 256 % 16)
      (Nat.land (c.V (op / 16 % 16)) (c.V (op / 256 % 16)))) }
  else if op % 16 = 3 then
    Outcome.ok { c with V := (upd c.V (op / 256 % 16)
      (c.V (op / 16 % 16) ^^^ c.V (op / 256 % 16))) }
  else if op % 16 = 4 then
    Outcome.ok { c with V := (upd
      (upd c.V 15 (if c.V (op / 256 % 16) + c.V (op / 16 % 16) > 255 then 1 else 0))
      (op / 256 % 16)
      ((c.V (op / 256 % 16) + c.V (op / 16 % 16)) % 256)) }
  else if op % 16 = 5 then
    Outcome.ok { c with V := (upd
      (upd c.V 15 (if c.V (op / 16 % 16) < c.V (op / 256 % 16) then 1 else 0))
      (op / 256 % 16)
      ((upd c.V 15 (if c.V (op / 16 % 16) < c.V (op / 256 % 16) then 1 else 0) (op / 256 % 16)
        + 256 -
        upd c.V 15 (if c.V (op / 16 % 16) < c.V (op / 256 % 16) then 1 else 0) (op / 16 % 16))
       % 256)) }
  else if op % 16 = 6 then
    Outcome.ok { c with V := (upd
      (upd c.V 15 (if c.V (op / 256 % 16) % 2 = 1 then 1 else 0))
      (op / 256 % 16)
      (upd c.V 15 (if c.V (op / 256 % 16) % 2 = 1 then 1 else 0) (op / 256 % 16) / 2)) }
  else if op % 16 = 7 then
    Outcome.ok { c with V := (upd
      (upd c.V 15 (if c.V (op / 256 % 16) < c.V (op / 16 % 16) then 1 else 0))
      (op / 256 % 16)
      ((upd c.V 15 (if c.V (op / 256 % 16) < c.V (op / 16 % 16) then 1 else 0) (op / 16 % 16)
        + 256 -
        upd c.V 15 (if c.V (op / 256 % 16) < c.V (op / 16 % 16) then 1 else 0) (op / 256 % 16))
       % 256)) }
  else if op % 16 = 14 then
    Outcome.ok { c with V := (upd
      (upd c.V 15 (if 128 ≤ c.V (op / 256 % 16) then 1 else 0))
      (op / 256 % 16)
      (upd c.V 15 (if 128 ≤ c.V (op / 256 % 16) then 1 else 0) (op / 256 % 16) * 2 % 256)) }
  else Outcome.ok c

/-- The `Dispatch` method of `cpu.go` (the full revision of the file,
its `Dispatch` starting at line 782).  `op / 4096` is the high-nibble
selector `op & 0xF000`; each branch is the corresponding `case` of the
Go `switch`.  The `0xE` and `0xF` families consist solely of empty
`case` bodies in the source and return `nil` for every low byte. -/
def Dispatch (c : CPU) (op : Nat) : Outcome :=
  if op / 4096 = 0 then
    -- 00E0 (CLS) is a TODO in the source and does nothing; 00EE is
    -- RET; everything else in the 0x0 family is an UnknownOpcode.
    if op = 224 then Outcome.ok c
    else if op = 238 then
      -- RET: PC = Stack[SP]; SP-- (byte decrement wraps at 0)
      if c.SP < 16 then
        Outcome.ok { c with PC := c.Stack c.SP, SP := (c.SP + 255) % 256 }
      else Outcome.fault
    else Outcome.err op
  else if op / 4096 = 1 then
    -- 1nnn: PC = nnn
    Outcome.ok { c with PC := op % 4096 }
  else if op / 4096 = 2 then
    -- 2nnn CALL: Stack[SP] = PC; SP++; PC = nnn
    if c.SP < 16 then
      Outcome.ok { c with Stack := upd c.Stack c.SP c.PC,
                          SP := (c.SP + 1) % 256, PC := op % 4096 }
    else Outcome.fault
  else if op / 4096 = 3 then
    -- 3xkk SE: skip (PC += 2) when V[x] == kk
    if c.V (op / 256 % 16) = op % 256 then
      Outcome.ok { c with PC := (c.PC + 2) % 65536 }
    else Outcome.ok c
  else if op / 4096 = 4 then
    -- 4xkk SNE: skip when V[x] != kk
    if c.V (op / 256 % 16) ≠ op % 256 then
      Outcome.ok { c with PC := (c.PC + 2) % 65536 }
    else Outcome.ok c
  else if op / 4096 = 5 then
    -- 5xy0 SE: low nibble must be 0, otherwise UnknownOpcode
    if op % 16 = 0 then
      if c.V (op / 256 % 16) = c.V (op / 16 % 16) then
        Outcome.ok { c with PC := (c.PC + 2) % 65536 }
      else Outcome.ok c
    else Outcome.err op
  else if op / 4096 = 6 then
    -- 6xkk: V[x] = kk
    Outcome.ok { c with V := upd c.V (op / 256 % 16) (op % 256) }
  else if op / 4096 = 7 then
    -- 7xkk: V[x] = V[x] + kk (byte addition)
    Outcome.ok { c with V := upd c.V (op / 256 % 16)
                              ((c.V (op / 256 % 16) + op % 256) % 256) }
  else if op / 4096 = 8 then
    alu c op
  else if op / 4096 = 9 then
    -- 9xy0 SNE: low nibble must be 0, otherwise UnknownOpcode
    if op % 16 = 0 then
      if c.V (op / 256 % 16) ≠ c.V (op / 16 % 16) then
        Outcome.ok { c with PC := (c.PC + 2) % 65536 }
      else Outcome.ok c
    else Outcome.err op
  else if op / 4096 = 10 then
    -- Annn: I = nnn; PC += 2
    Outcome.ok { c with I := op % 4096, PC := (c.PC + 2) % 65536 }
  else if op / 4096 = 11 then
    -- Bnnn: PC = nnn + V[0]
    Outcome.ok { c with PC := (op % 4096 + c.V 0) % 65536 }
  else if op / 4096 = 12 then
    -- Cxkk: the source stores kk + randByte() (byte addition), although
    -- its own comment says the random byte is ANDed with kk.
    Outcome.ok { c with V := upd c.V (op / 256 % 16) ((op % 256 + c.rnd) % 256) }
  else if op / 4096 = 13 then
    -- Dxyn: s = V[x] * V[y] (byte product), loop n times
    drawLoop (op % 16) ((c.V (op / 256 % 16) * c.V (op / 16 % 16)) % 256)
      (op % 16) c
  else if op / 4096 = 14 then
    Outcome.ok c
  else if op / 4096 = 15 then
    Outcome.ok c
  else Outcome.err op

/-- A freshly constructed CPU: zeroed state with `PC = 0x200`, as
`NewCPU` produces (the font set occupies low memory in the real
constructor; its contents are irrelevant to the opcodes studied here). -/
def cpu0 : CPU :=
  { Memory := zeros
    I := 0
    PC := 512
    V := zeros
    Stack := zeros
    SP := 0
    Pixels := zeros
    rnd := 0 }

/-!
Embedding of `graphics.go`.  The graphics array is 64×32 pixels stored
row-major in a `[2048]byte`; `Set` computes the linear address
`a = x + y*64` and its indexing of `Pixels[a]` carries Go's bounds
check against the static length 2048 (`none` models the panic).
`WriteSprite` adjusts each coordinate with a single conditional
subtraction of the dimension before calling `Set`.
-/

/-- The X adjustment of `WriteSprite`: `if xp >= 64 { xp = xp - 64 }`. -/
def wrapX (v : Nat) : Nat :=
  if 64 ≤ v then v - 64 else v

/-- The Y adjustment of `WriteSprite`: `if yp >= 32 { yp = yp - 32 }`. -/
def wrapY (v : Nat) : Nat :=
  if 32 ≤ v then v - 32 else v

/-- Linear framebuffer address that `Set` computes for the sprite bit in
column `xl` of row `yl`, drawn at origin `(x, y)`. -/
def setAddr (x y xl yl : Nat) : Nat :=
  wrapX (x + xl) + wrapY (y + yl) * 64

/-- Sprite-bit test of `WriteSprite`: `i = 0x80 >> xl; on = (r & i) == i`. -/
def bitOn (r xl : Nat) : Bool :=
  r &&& (128 >>> xl) = 128 >>> xl

/-- The `Set` method of `Graphics`.  It reports a collision whenever the
addressed pixel is already 1 — before, and regardless of, the XOR write.
`none` is the Go panic on an out-of-range address. -/
def gSet (pix : Nat → Nat) (x y : Nat) (lit : Bool) :
    Option ((Nat → Nat) × Bool) :=
  let a := x + y * 64
  if a < 2048 then
    let v : Nat := if lit then 1 else 0
    some (upd pix a (pix a ^^^ v), pix a == 1)
  else none

/-- One iteration of the inner (column) loop of `WriteSprite`, as a fold
step over the column index `xl`. -/
def wsStep (r x y yl : Nat) (st : Option ((Nat → Nat) × Bool)) (xl : Nat) :
    Option ((Nat → Nat) × Bool) :=
  match st with
  | none => none
  | some (pix, coll) =>
    match gSet pix (wrapX (x + xl)) (wrapY (y + yl)) (bitOn r xl) with
    | none => none
    | some (pix2, c2) => some (pix2, coll || c2)

/-- The inner loop of `WriteSprite` over the 8 columns of sprite row `r`
(row index `yl`). -/
def wsRow (pix : Nat → Nat) (r x y yl : Nat) (coll : Bool) :
    Option ((Nat → Nat) × Bool) :=
  (List.range 8).foldl (wsStep r x y yl) (some (pix, coll))

/-- The outer loop of `WriteSprite` over the sprite rows, with running
row index `yl` and accumulated collision flag. -/
def wsRows : (Nat → Nat) → List Nat → Nat → Nat → Nat → Bool →
    Option ((Nat → Nat) × Bool)
  | pix, [], _, _, _, coll => some (pix, coll)
  | pix, r :: rest, x, y, yl, coll =>
    match wsRow pix r x y yl coll with
    | none => none
    | some (pix2, coll2) => wsRows pix2 rest x y (yl + 1) coll2

/-- The `WriteSprite` method of `Graphics`: composite `sprite` onto the
framebuffer `pix` at origin `(x, y)` and report whether any addressed
pixel was already lit.  In Go `x` and `y` are bytes. -/
def WriteSprite (pix : Nat → Nat) (sprite : List Nat) (x y : Nat) :
    Option ((Nat → Nat) × Bool) :=
  wsRows pix sprite x y 0 false

/-- The addresses that `EachPixel` visits: its loops run
`y < GraphicsHeight-1` and `x < GraphicsWidth-1`, i.e. `y ≤ 30` and
`x ≤ 62`, with `a = y*64 + x`. -/
def EachPixelAddrs : List Nat :=
  (List.range 31).flatMap (fun y => (List.range 63).map (fun x => y * 64 + x))

/-- The `Clear` method of `Graphics`: write 0 at every address that
`EachPixel` yields. -/
def ClearG (pix : Nat → Nat) : Nat → Nat :=
  EachPixelAddrs.foldl (fun p a => upd p a 0) pix

/-! Concrete states used by the evaluation theorems and witnesses. -/

/-- The fresh CPU with `V[1] = 0x23`. -/
def cpuV123 : CPU :=
  { cpu0 with V := upd zeros 1 0x23 }

/-- The fresh CPU with the injectable random generator returning 1, as
the repository test for `Cxkk` mocks it. -/
def cpuR1 : CPU :=
  { cpu0 with rnd := 1 }

/-- The fresh CPU with `V[0] = 3` and `V[F] = 5`. -/
def cpuVF5 : CPU :=
  { cpu0 with V := upd (upd zeros 0 3) 15 5 }

/-- The fresh CPU with `V[0] = 5` and `V[F] = 3`. -/
def cpuV05 : CPU :=
  { cpu0 with V := upd (upd zeros 0 5) 15 3 }

/-- The state of the repository's `Fx55` test: `V[0]=3`, `V[1]=2`,
`V[2]=1` and `I = 0x220`. -/
def cpu55 : CPU :=
  { cpu0 with V := upd (upd (upd zeros 0 3) 1 2) 2 1, I := 0x220 }

/-- The state of the repository's `Fx65` test: `Memory[0x200]=1`,
`Memory[0x201]=2` and `I = 0x200`. -/
def cpu65 : CPU :=
  { cpu0 with Memory := upd (upd zeros 0x200 1) 0x201 2, I := 0x200 }

/-- The fresh CPU with a pre-existing return address 1911 in stack
slot 1. -/
def cpuStk : CPU :=
  { cpu0 with Stack := upd zeros 1 1911 }

/--
C1.  The claim says every conditional skip opcode advances PC by 2 when
the condition is false and by 4 when it is true.  The code has no
unconditional `PC += 2` anywhere on the skip paths (`Step` only calls
`Dispatch`, and the skip handlers bump PC by 2 only when the condition
holds), so from PC = 0x200 the spec's own example `0x3123` leaves PC at
0x200 with V1 = 0x00 (the claim demands 0x202) and at 0x202 with
V1 = 0x23 (the claim demands 0x204); likewise for `4xkk`, `5xy0` and
`9xy0`.  This evaluation records the actual +0/+2 behaviour at those
failing inputs.
-/
theorem C1_skip_pc_eval :
    Dispatch cpu0 0x3123 = Outcome.ok cpu0 ∧
    Dispatch cpuV123 0x3123 = Outcome.ok { cpuV123 with PC := 0x202 } ∧
    Dispatch cpu0 0x4123 = Outcome.ok { cpu0 with PC := 0x202 } ∧
    Dispatch cpuV123 0x4123 = Outcome.ok cpuV123 ∧
    Dispatch cpu0 0x5120 = Outcome.ok { cpu0 with PC := 0x202 } ∧
    Dispatch cpu0 0x9120 = Outcome.ok cpu0 :=
  ⟨rfl, rfl, rfl, rfl, rfl, rfl⟩

/--
C8.  The claim (and the comment in the source) says `Cxkk` stores
`randByte() AND kk`; the code stores `kk + randByte()` instead.  With
the generator returning 0x01 — the value the repository test injects —
opcode `0xC110` stores 0x11 in V1, while `0x10 AND 0x01 = 0`.
-/
theorem C8_rnd_eval :
    Dispatch cpuR1 0xC110 = Outcome.ok { cpuR1 with V := upd zeros 1 0x11 } ∧
    0x10 &&& 0x01 = 0 :=
  ⟨rfl, by decide⟩

/--
C10.  The claim describes `Fx55`/`Fx65` as block transfers between
registers and memory.  In the source both `case` bodies are empty, so
dispatching them changes nothing: on the repository's own `Fx55` test
state (`V0..V2 = 3,2,1`, `I = 0x220`) no register reaches memory
(`Memory[0x220]` stays 0 although the test demands 3), and on its
`Fx65` test state no memory reaches the registers (the CPU is returned
unchanged although the test demands `V0 = 1`).
-/
theorem C10_fx55_fx65_eval :
    Dispatch cpu55 0xF255 = Outcome.ok cpu55 ∧
    cpu55.Memory 0x220 = 0 ∧
    Dispatch cpu65 0xF165 = Outcome.ok cpu65 ∧
    cpu65.V 0 = 0 :=
  ⟨rfl, rfl, rfl, rfl⟩

/--
C3.  `CALL` (2nnn) stores the current PC in `Stack[SP]` and increments
SP; the immediately following `RET` (00EE) reads `Stack[SP]` before
decrementing, i.e. the slot *above* the one `CALL` wrote, so PC becomes
the pre-existing content of `Stack[SP+1]` and SP returns to its
original value; the pushed return address is never read.
-/
theorem C3_call_ret (c : CPU) (nnn : Nat) (hSP : c.SP ≤ 14) (hnnn : nnn < 4096) :
    ∃ c1 c2,
      Dispatch c (0x2000 + nnn) = Outcome.ok c1 ∧
      Dispatch c1 0xEE = Outcome.ok c2 ∧
      c1.Stack = upd c.Stack c.SP c.PC ∧
      c1.SP = c.SP + 1 ∧
      c1.PC = nnn ∧
      c2.PC = c.Stack (c.SP + 1) ∧
      c2.SP = c.SP ∧
      c2.Stack = upd c.Stack c.SP c.PC := by
  have hdiv : (0x2000 + nnn) / 4096 = 2 := by omega
  have hmod : (0x2000 + nnn) % 4096 = nnn := by omega
  have hsp16 : c.SP < 16 := by omega
  have hs1 : (c.SP + 1) % 256 = c.SP + 1 := by omega
  have hs2 : (c.SP + 1 + 255) % 256 = c.SP := by omega
  refine ⟨{ c with Stack := upd c.Stack c.SP c.PC, SP := c.SP + 1, PC := nnn },
          { c with Stack := upd c.Stack c.SP c.PC, SP := c.SP,
                   PC := c.Stack (c.SP + 1) }, ?_, ?_, rfl, rfl, rfl, rfl, rfl, rfl⟩
  · simp only [Dispatch, hdiv, hmod]
    norm_num
    rw [if_pos hsp16, hs1]
  · have hread : upd c.Stack c.SP c.PC (c.SP + 1) = c.Stack (c.SP + 1) :=
      upd_ne c.Stack c.PC (by omega)
    simp only [Dispatch]
    norm_num
    rw [if_pos (show c.SP + 1 < 16 by omega), hread, hs2]

/--
C7, counterexample.  The claim quantifies over all register pairs of
the `8xy5` SUB opcode, but the flag write `V[F] = cf` happens before
the subtraction, so selecting register F breaks it.  With `V[F] = 5`,
`V[0] = 3`, opcode `0x8F05` leaves `V[F] = 254` (the claim demands
`VF = 1` and `V[F] = (5-3) mod 256 = 2`); with `V[0] = 5`, `V[F] = 3`,
opcode `0x80F5` leaves `V[0] = 4` because the subtrahend read after
the flag write is the flag, not `V[F]` (the claim demands 2).
-/
theorem C7_sub_flag_alias_cex :
    okV (Dispatch cpuVF5 0x8F05) 15 = 254 ∧ (254 : Nat) ≠ 2 ∧ (254 : Nat) ≠ 1 ∧
    okV (Dispatch cpuV05 0x80F5) 0 = 4 ∧ (4 : Nat) ≠ 2 :=
  ⟨rfl, by decide, by decide, rfl, by decide⟩

/--
C7, amended.  For the `8xy5` SUB opcode with both selected registers
different from the flag register F, dispatching sets `V[F]` to 1
exactly when `Vx > Vy` (strictly) and stores `(Vx - Vy) mod 256`
(computed as `(Vx + 256 - Vy) mod 256` on bytes) in `Vx`.
-/
theorem C7_sub (c : CPU) (x y : Nat) (hx : x < 16) (hy : y < 16)
    (hxF : x ≠ 15) (hyF : y ≠ 15)
    (ha : c.V x < 256) (hb : c.V y < 256) :
    ∃ c2, Dispatch c (0x8005 + x * 256 + y * 16) = Outcome.ok c2 ∧
      c2.V 15 = (if c.V y < c.V x then 1 else 0) ∧
      c2.V x = (c.V x + 256 - c.V y) % 256 := by
  have hdiv : (0x8005 + x * 256 + y * 16) / 4096 = 8 := by omega
  have hx' : (0x8005 + x * 256 + y * 16) / 256 % 16 = x := by omega
  have hy' : (0x8005 + x * 256 + y * 16) / 16 % 16 = y := by omega
  have hm : (0x8005 + x * 256 + y * 16) % 16 = 5 := by omega
  refine ⟨{ c with V := (upd (upd c.V 15 (if c.V y < c.V x then 1 else 0)) x
              ((c.V x + 256 - c.V y) % 256)) }, ?_, ?_, ?_⟩
  · simp only [Dispatch, alu, hdiv, hx', hy', hm]
    norm_num
    rw [upd_ne c.V _ hxF, upd_ne c.V _ hyF]
  · show upd (upd c.V 15 _) x _ 15 = _
    rw [upd_ne _ _ (Ne.symm hxF), upd_self]
  · show upd (upd c.V 15 _) x _ x = _
    rw [upd_self]

/-- The CPU of the repository's first SUB test: `V[1] = 0xFF`,
`V[2] = 0x03`. -/
def cpuSub : CPU :=
  { cpu0 with V := upd (upd zeros 1 0xFF) 2 3 }

/-- Witness for C7 at the repository's SUB test state, opcode `0x8125`. -/
theorem C7_sub_witness :
    ∃ c2, Dispatch cpuSub (0x8005 + 1 * 256 + 2 * 16) = Outcome.ok c2 ∧
      c2.V 15 = (if cpuSub.V 2 < cpuSub.V 1 then 1 else 0) ∧
      c2.V 1 = (cpuSub.V 1 + 256 - cpuSub.V 2) % 256 :=
  C7_sub cpuSub 1 2 (by decide) (by decide) (by decide) (by decide)
    (by decide) (by decide)

set_option maxHeartbeats 2000000 in
/-- Neither `alu` branch of `Dispatch` ever produces the UnknownOpcode
error: a `0x8xy?` sub-opcode without a `case` falls through silently. -/
theorem alu_ne_err (c : CPU) (op e : Nat) : alu c op ≠ Outcome.err e := by
  unfold alu
  split_ifs
  all_goals exact fun hh => Outcome.noConfusion hh

/-- The `Dxyn` loop produces only normal returns and faults, never the
UnknownOpcode error. -/
theorem drawLoop_ne_err (k : Nat) : ∀ (s n : Nat) (c : CPU) (e : Nat),
    drawLoop k s n c ≠ Outcome.err e := by
  induction k with
  | zero => intro s n c e; simp [drawLoop]
  | succ k ih =>
    intro s n c e
    simp only [drawLoop]
    split
    · exact ih s n _ e
    · simp

/-- The exact set of opcodes on which `Dispatch` returns the
UnknownOpcode error: the `0x0` family except `00E0`/`00EE`, and the
`0x5`/`0x9` families with a nonzero low nibble. -/
def errSpec (op : Nat) : Prop :=
  (op / 4096 = 0 ∧ op ≠ 224 ∧ op ≠ 238) ∨
  (op / 4096 = 5 ∧ op % 16 ≠ 0) ∨
  (op / 4096 = 9 ∧ op % 16 ≠ 0)

instance (op : Nat) : Decidable (errSpec op) := by
  unfold errSpec
  infer_instance

/--
C2, counterexample.  Opcode `0x8008` has no defined handler (the `8xy?`
ALU family has cases only for low nibbles 0-7 and E), yet `Dispatch`
returns `nil` for it, silently ignoring it instead of reporting the
claimed UnknownOpcode error.
-/
theorem C2_silently_ignored_cex : Dispatch cpu0 0x8008 = Outcome.ok cpu0 :=
  rfl

/--
C2, amended.  For every 16-bit opcode, `Dispatch` returns the
UnknownOpcode error — always carrying the raw opcode value — exactly
for the unrecognized opcodes of the `0x0`, `0x5` and `0x9` families
(`errSpec`); unhandled opcodes inside the `0x8`, `0xE` and `0xF`
families are silently accepted.
-/
theorem C2_unknown_exact (c : CPU) (op eop : Nat) (h : op < 65536) :
    Dispatch c op = Outcome.err eop ↔ (errSpec op ∧ eop = op) := by
  have ha := alu_ne_err c op eop
  have hd := drawLoop_ne_err (op % 16)
    ((c.V (op / 256 % 16) * c.V (op / 16 % 16)) % 256) (op % 16) c eop
  have hcase : op / 4096 = 0 ∨ op / 4096 = 1 ∨ op / 4096 = 2 ∨ op / 4096 = 3 ∨
      op / 4096 = 4 ∨ op / 4096 = 5 ∨ op / 4096 = 6 ∨ op / 4096 = 7 ∨
      op / 4096 = 8 ∨ op / 4096 = 9 ∨ op / 4096 = 10 ∨ op / 4096 = 11 ∨
      op / 4096 = 12 ∨ op / 4096 = 13 ∨ op / 4096 = 14 ∨ op / 4096 = 15 := by
    omega
  unfold Dispatch errSpec
  rcases hcase with hh0|hh0|hh0|hh0|hh0|hh0|hh0|hh0|hh0|hh0|hh0|hh0|hh0|hh0|hh0|hh0
  all_goals rw [hh0]
  all_goals norm_num
  all_goals try split_ifs
  all_goals first
    | exact not_false
    | exact fun hh => Outcome.noConfusion hh
    | exact ha
    | exact hd
    | exact iff_of_false (fun hh => Outcome.noConfusion hh) (by omega)
    | exact iff_of_false ha (by omega)
    | exact iff_of_false hd (by omega)
    | exact iff_of_false not_false (by omega)
    | exact ⟨fun hh => by omega, fun hh => by omega⟩
    | (constructor
       · intro hh
         injection hh with hop
         omega
       · intro hh
         have hop : eop = op := by omega
         rw [hop])

/-- Witness for C2 at opcode `0x0123`, a `SYS`-range opcode with no
handler: `Dispatch` reports it, carrying the raw value. -/
theorem C2_unknown_exact_witness :
    Dispatch cpu0 0x0123 = Outcome.err 0x0123 ↔ (errSpec 0x0123 ∧ 0x0123 = 0x0123) :=
  C2_unknown_exact cpu0 0x0123 0x0123 (by decide)

/--
C5.  The claim says each sprite bit lands at
`((x + column) mod 64, (y + row) mod 32)` for all byte coordinates.
`WriteSprite` only subtracts the dimension once, so for `x = 128` the
single set bit of the one-row sprite `0x80` is written to linear cell
64 — which is pixel (0,1), a different row — while cell
`(128+0) mod 64 + 64*((0+0) mod 32) = 0` stays 0.  The claim's own
`y = height + k` instance also fails: the repository's wrap test draws
a 5-row sprite at `y = 32 + 28 = 60`, where row 4 yields the
unwrapped coordinate 32 and the draw indexes `Pixels` out of range
(a Go panic, `none` here), whereas the same draw at `y = 28` succeeds.
-/
theorem C5_wrap_eval :
    (WriteSprite zeros [0x80] 128 0).map (fun p => (p.1 0, p.1 64, p.2)) =
      some (0, 1, false) ∧
    (128 + 0) % 64 + 64 * ((0 + 0) % 32) = 0 ∧
    WriteSprite zeros [1, 1, 1, 1, 1] 0 60 = none ∧
    (WriteSprite zeros [1, 1, 1, 1, 1] 0 28).isSome = true :=
  ⟨rfl, rfl, rfl, rfl⟩

/-- Reading a cell after the `Clear` fold: it is 0 exactly on the
visited addresses, untouched elsewhere. -/
theorem foldl_upd_zero (L : List Nat) (pix : Nat → Nat) (i : Nat) :
    L.foldl (fun p a => upd p a 0) pix i = if i ∈ L then 0 else pix i := by
  induction L generalizing pix with
  | nil => simp
  | cons a L ih =>
    simp only [List.foldl_cons]
    rw [ih]
    by_cases hi : i ∈ L
    · simp [hi]
    · by_cases ha : i = a
      · subst ha
        simp [hi, upd_self]
      · simp [hi, ha, upd]

/-- The visited addresses of `EachPixel`: `y*64 + x` for `y < 31`,
`x < 63` — the last row (y = 31) and last column (x = 63) are never
yielded. -/
theorem mem_EachPixelAddrs (a : Nat) :
    a ∈ EachPixelAddrs ↔ ∃ y, y < 31 ∧ ∃ x, x < 63 ∧ y * 64 + x = a := by
  simp [EachPixelAddrs, List.mem_flatMap, List.mem_map, List.mem_range]

/-- The all-ones framebuffer. -/
def pixOnes : Nat → Nat := fun _ => 1

/-!
A flat view of `WriteSprite`.  The two nested loops perform, in order,
one `Set` per (row, column) pair; each `Set` is determined by the pair
(address, written bit).  `spriteSteps` lists those pairs in execution
order and `runSteps` replays them; the bridge lemmas prove this equal
to `WriteSprite`, and the structural lemmas about `runSteps` yield the
involution (C6) and the collision characterization (C4).
-/

/-- The (address, bit value) pairs of one sprite row, in column order. -/
def rowSteps (r x y yl : Nat) : List (Nat × Nat) :=
  (List.range 8).map (fun xl => (setAddr x y xl yl, if bitOn r xl then 1 else 0))

/-- The (address, bit value) pairs of a whole sprite, row-major. -/
def spriteSteps : List Nat → Nat → Nat → Nat → List (Nat × Nat)
  | [], _, _, _ => []
  | r :: rest, x, y, yl => rowSteps r x y yl ++ spriteSteps rest x y (yl + 1)

/-- Replay one `Set`: XOR the bit into the addressed cell, accumulate
the was-already-lit collision flag, fault outside the framebuffer. -/
def runStep (st : Option ((Nat → Nat) × Bool)) (s : Nat × Nat) :
    Option ((Nat → Nat) × Bool) :=
  match st with
  | none => none
  | some (pix, coll) =>
    if s.1 < 2048 then
      some (upd pix s.1 (pix s.1 ^^^ s.2), coll || (pix s.1 == 1))
    else none

/-- Replay a list of `Set`s. -/
def runSteps (st : Option ((Nat → Nat) × Bool)) (S : List (Nat × Nat)) :
    Option ((Nat → Nat) × Bool) :=
  S.foldl runStep st

theorem runSteps_none (S : List (Nat × Nat)) : runSteps none S = none := by
  induction S with
  | nil => rfl
  | cons s S ih => exact ih

theorem runSteps_append (st : Option ((Nat → Nat) × Bool)) (A B : List (Nat × Nat)) :
    runSteps st (A ++ B) = runSteps (runSteps st A) B := by
  unfold runSteps
  rw [List.foldl_append]

theorem wsStep_eq (r x y yl : Nat) (st : Option ((Nat → Nat) × Bool)) (xl : Nat) :
    wsStep r x y yl st xl =
      runStep st (setAddr x y xl yl, if bitOn r xl then 1 else 0) := by
  cases st with
  | none => rfl
  | some p =>
    obtain ⟨pix, coll⟩ := p
    simp only [wsStep, runStep, gSet, setAddr]
    by_cases hlt : wrapX (x + xl) + wrapY (y + yl) * 64 < 2048
    · rw [if_pos hlt, if_pos hlt]
    · rw [if_neg hlt, if_neg hlt]

theorem wsRow_eq (pix : Nat → Nat) (r x y yl : Nat) (coll : Bool) :
    wsRow pix r x y yl coll = runSteps (some (pix, coll)) (rowSteps r x y yl) := by
  unfold wsRow runSteps rowSteps
  rw [List.foldl_map]
  have hfn : wsStep r x y yl =
      fun st xl => runStep st (setAddr x y xl yl, if bitOn r xl then 1 else 0) := by
    funext st xl
    exact wsStep_eq r x y yl st xl
  rw [hfn]

theorem wsRows_eq (sprite : List Nat) : ∀ (pix : Nat → Nat) (x y yl : Nat) (coll : Bool),
    wsRows pix sprite x y yl coll =
      runSteps (some (pix, coll)) (spriteSteps sprite x y yl) := by
  induction sprite with
  | nil => intro pix x y yl coll; rfl
  | cons r rest ih =>
    intro pix x y yl coll
    simp only [wsRows, spriteSteps]
    rw [wsRow_eq, runSteps_append]
    cases hr : runSteps (some (pix, coll)) (rowSteps r x y yl) with
    | none => rw [runSteps_none]
    | some p =>
      obtain ⟨pix2, coll2⟩ := p
      exact ih pix2 x y (yl + 1) coll2

/-- The XOR of all bit values a step list writes to address `a`. -/
def xorMass (a : Nat) (S : List (Nat × Nat)) : Nat :=
  S.foldr (fun s acc => if s.1 = a then s.2 ^^^ acc else acc) 0

/-- After a successful replay, each cell holds its old value XORed
with everything written to its address. -/
theorem runSteps_some_val (S : List (Nat × Nat)) :
    ∀ (pix : Nat → Nat) (coll : Bool) (pix2 : Nat → Nat) (coll2 : Bool),
      runSteps (some (pix, coll)) S = some (pix2, coll2) →
      ∀ i, pix2 i = pix i ^^^ xorMass i S := by
  induction S with
  | nil =>
    intro pix coll pix2 coll2 h i
    injection h with h2
    injection h2 with hp hc
    rw [← hp]
    simp [xorMass]
  | cons s S ih =>
    intro pix coll pix2 coll2 h i
    simp only [runSteps, List.foldl_cons] at h
    by_cases hs : s.1 < 2048
    · rw [show runStep (some (pix, coll)) s =
          some (upd pix s.1 (pix s.1 ^^^ s.2), coll || (pix s.1 == 1)) by
            simp [runStep, hs]] at h
      have hi := ih _ _ _ _ h i
      by_cases hia : i = s.1
      · subst hia
        rw [hi, upd_self]
        have hm : xorMass s.1 (s :: S) = s.2 ^^^ xorMass s.1 S := by
          simp [xorMass]
        rw [hm, Nat.xor_assoc]
      · rw [hi, upd_ne _ _ hia]
        have hm : xorMass i (s :: S) = xorMass i S := by
          simp only [xorMass, List.foldr_cons]
          rw [if_neg (fun hh => hia hh.symm)]
        rw [hm]
    · rw [show runStep (some (pix, coll)) s = none by simp [runStep, hs]] at h
      rw [show (List.foldl runStep none S : Option ((Nat → Nat) × Bool)) =
            none from runSteps_none S] at h
      exact absurd h (by simp)

/-- A replay succeeds exactly when every address is inside the
framebuffer — independently of the buffer contents and flag. -/
theorem runSteps_isSome (S : List (Nat × Nat)) :
    ∀ (pix : Nat → Nat) (coll : Bool),
      (runSteps (some (pix, coll)) S).isSome = true ↔ ∀ s ∈ S, s.1 < 2048 := by
  induction S with
  | nil => intro pix coll; simp [runSteps]
  | cons s S ih =>
    intro pix coll
    simp only [runSteps, List.foldl_cons]
    by_cases hs : s.1 < 2048
    · rw [show runStep (some (pix, coll)) s =
          some (upd pix s.1 (pix s.1 ^^^ s.2), coll || (pix s.1 == 1)) by
            simp [runStep, hs]]
      rw [show (List.foldl runStep _ S : Option ((Nat → Nat) × Bool)) =
            runSteps (some (upd pix s.1 (pix s.1 ^^^ s.2),
              coll || (pix s.1 == 1))) S from rfl]
      rw [ih]
      simp [hs]
    · rw [show runStep (some (pix, coll)) s = none by simp [runStep, hs]]
      rw [show (List.foldl runStep none S : Option ((Nat → Nat) × Bool)) =
            none from runSteps_none S]
      simp only [Option.isSome_none, Bool.false_eq_true, false_iff]
      intro hall
      exact hs (hall s (List.mem_cons_self s S))

/--
C6.  Drawing the identical sprite at the same origin twice in a row
restores every framebuffer cell: each cell is XORed with the same bit
mass both times, and XOR is an involution.  The hypothesis is that the
first draw completes (no out-of-range fault); the second then
completes too, returning exactly the original buffer.
-/
theorem C6_double_draw (pix : Nat → Nat) (sprite : List Nat) (x y : Nat)
    (pix1 : Nat → Nat) (c1 : Bool)
    (h : WriteSprite pix sprite x y = some (pix1, c1)) :
    ∃ c2, WriteSprite pix1 sprite x y = some (pix, c2) := by
  rw [WriteSprite, wsRows_eq] at h ⊢
  have hin : ∀ s ∈ spriteSteps sprite x y 0, s.1 < 2048 := by
    rw [← runSteps_isSome (spriteSteps sprite x y 0) pix false, h]
    rfl
  have hsome : (runSteps (some (pix1, false)) (spriteSteps sprite x y 0)).isSome = true :=
    (runSteps_isSome _ pix1 false).mpr hin
  obtain ⟨p2, hp2⟩ := Option.isSome_iff_exists.mp hsome
  obtain ⟨pix2, c2⟩ := p2
  have hv1 := runSteps_some_val _ _ _ _ _ h
  have hv2 := runSteps_some_val _ _ _ _ _ hp2
  have hpix : pix2 = pix := by
    funext i
    rw [hv2 i, hv1 i, Nat.xor_assoc, Nat.xor_self, Nat.xor_zero]
  refine ⟨c2, ?_⟩
  rw [hp2, hpix]

/-- The first draw of the C6 witness: a buffer with cell 0 lit, and
the one-row sprite `0x80` drawn at the origin. -/
def pixOne0 : Nat → Nat := upd zeros 0 1

/-- The buffer the C6 witness's first draw produces. -/
def pixAfter1 : Nat → Nat :=
  match WriteSprite pixOne0 [0x80] 0 0 with
  | some p => p.1
  | none => zeros

/-- Witness for C6: drawing `0x80` at the origin twice over a buffer
whose cell 0 is lit gives back that buffer. -/
theorem C6_double_draw_witness :
    ∃ c2, WriteSprite pixAfter1 [0x80] 0 0 = some (pixOne0, c2) :=
  C6_double_draw pixOne0 [0x80] 0 0 pixAfter1 true rfl

/-- For a fixed byte origin, distinct (column, row) pairs of a sprite
with at most 32 rows reach distinct framebuffer addresses: the 8
columns adjusted by at most one subtraction of 64 never collide, and
neither do rows less than 32 apart adjusted by at most one subtraction
of 32. -/
theorem setAddr_inj {x y xl1 yl1 xl2 yl2 : Nat} (hx : x < 256) (hy : y < 256)
    (h1 : xl1 < 8) (h2 : xl2 < 8) (h3 : yl1 < 32) (h4 : yl2 < 32)
    (he : setAddr x y xl1 yl1 = setAddr x y xl2 yl2) :
    xl1 = xl2 ∧ yl1 = yl2 := by
  unfold setAddr wrapX wrapY at he
  split_ifs at he <;> omega

/-- Elements of the flat step list, characterized: the step of column
`xl` in the `j`-th sprite row. -/
theorem mem_spriteSteps (sprite : List Nat) : ∀ (x y yl0 : Nat) (s : Nat × Nat),
    s ∈ spriteSteps sprite x y yl0 ↔
      ∃ j, j < sprite.length ∧ ∃ xl, xl < 8 ∧
        s = (setAddr x y xl (yl0 + j),
             if bitOn (sprite.getD j 0) xl then 1 else 0) := by
  induction sprite with
  | nil =>
    intro x y yl0 s
    simp [spriteSteps]
  | cons r rest ih =>
    intro x y yl0 s
    simp only [spriteSteps, List.mem_append, rowSteps, List.mem_map,
      List.mem_range, ih]
    constructor
    · rintro (⟨xl, hxl, rfl⟩ | ⟨j, hj, xl, hxl, rfl⟩)
      · exact ⟨0, by simp, xl, hxl, by simp⟩
      · refine ⟨j + 1, by simpa using hj, xl, hxl, ?_⟩
        rw [show yl0 + (j + 1) = yl0 + 1 + j by omega]
        rfl
    · rintro ⟨j, hj, xl, hxl, rfl⟩
      cases j with
      | zero => exact Or.inl ⟨xl, hxl, by simp⟩
      | succ j =>
        refine Or.inr ⟨j, by simpa using hj, xl, hxl, ?_⟩
        rw [show yl0 + (j + 1) = yl0 + 1 + j by omega]
        rfl

/-- For a byte origin and at most 32 rows starting at row `yl0`, the
addresses of the step list are pairwise distinct. -/
theorem spriteSteps_pairwise (sprite : List Nat) : ∀ (x y yl0 : Nat),
    x < 256 → y < 256 → yl0 + sprite.length ≤ 32 →
    List.Pairwise (fun s t => s.1 ≠ t.1) (spriteSteps sprite x y yl0) := by
  induction sprite with
  | nil => intro x y yl0 _ _ _; exact List.Pairwise.nil
  | cons r rest ih =>
    intro x y yl0 hx hy hlen
    simp only [spriteSteps]
    rw [List.pairwise_append]
    refine ⟨?_, ?_, ?_⟩
    · unfold rowSteps
      rw [List.pairwise_map]
      have hyl : yl0 < 32 := by
        simp at hlen
        omega
      refine List.Pairwise.imp_of_mem ?_ (List.pairwise_lt_range 8)
      intro xl1 xl2 hm1 hm2 hlt he
      rw [List.mem_range] at hm1 hm2
      have := setAddr_inj hx hy hm1 hm2 hyl hyl he
      omega
    · exact ih x y (yl0 + 1) hx hy (by simp at hlen; omega)
    · intro a ha b hb
      obtain ⟨xl1, hxl1, rfl⟩ := by
        simpa only [rowSteps, List.mem_map, List.mem_range] using ha
      obtain ⟨j, hj, xl2, hxl2, rfl⟩ := (mem_spriteSteps rest x y (yl0 + 1) b).mp hb
      intro he
      have hlen2 : rest.length ≤ 31 := by
        simp at hlen
        omega
      have := setAddr_inj hx hy hxl1 hxl2 (by simp at hlen; omega)
        (by simp at hlen; omega) he
      omega

/-- After a successful replay whose addresses are pairwise distinct,
the collision flag is set exactly when the accumulator was already set
or some replayed address was lit in the starting buffer. -/
theorem runSteps_coll (S : List (Nat × Nat)) :
    ∀ (pix : Nat → Nat) (coll : Bool) (pix2 : Nat → Nat) (coll2 : Bool),
      List.Pairwise (fun s t => s.1 ≠ t.1) S →
      runSteps (some (pix, coll)) S = some (pix2, coll2) →
      (coll2 = true ↔ (coll = true ∨ ∃ s ∈ S, pix s.1 = 1)) := by
  induction S with
  | nil =>
    intro pix coll pix2 coll2 _ h
    injection h with h2
    injection h2 with hp hc
    subst hc
    simp
  | cons s S ih =>
    intro pix coll pix2 coll2 hpw h
    rw [List.pairwise_cons] at hpw
    obtain ⟨hhead, htail⟩ := hpw
    simp only [runSteps, List.foldl_cons] at h
    by_cases hs : s.1 < 2048
    · rw [show runStep (some (pix, coll)) s =
          some (upd pix s.1 (pix s.1 ^^^ s.2), coll || (pix s.1 == 1)) by
            simp [runStep, hs]] at h
      have hiff := ih _ _ _ _ htail h
      rw [hiff]
      constructor
      · rintro (hc | ⟨t, ht, hval⟩)
        · have hc2 : coll = true ∨ pix s.1 = 1 := by simpa using hc
          rcases hc2 with h1 | h1
          · exact Or.inl h1
          · exact Or.inr ⟨s, List.mem_cons_self s S, h1⟩
        · have hne : t.1 ≠ s.1 := fun hh => (hhead t ht) hh.symm
          rw [upd_ne _ _ hne] at hval
          exact Or.inr ⟨t, List.mem_cons_of_mem _ ht, hval⟩
      · rintro (hc | ⟨t, ht, hval⟩)
        · exact Or.inl (by simp [hc])
        · rcases List.mem_cons.mp ht with rfl | hts
          · exact Or.inl (by simp [hval])
          · have hne : t.1 ≠ s.1 := fun hh => (hhead t hts) hh.symm
            refine Or.inr ⟨t, hts, ?_⟩
            rw [upd_ne _ _ hne]
            exact hval
    · rw [show runStep (some (pix, coll)) s = none by simp [runStep, hs]] at h
      rw [show (List.foldl runStep none S : Option ((Nat → Nat) × Bool)) =
            none from runSteps_none S] at h
      exact absurd h (by simp)

/--
C4, amended.  For a sprite of at most 32 rows drawn at a byte origin,
a completed `WriteSprite` reports a collision exactly when some
framebuffer cell inside the sprite's 8-x-n footprint was already 1
before the draw — whether or not the sprite bit over it is set, i.e.
whether or not any pixel is actually cleared.
-/
theorem C4_collision (pix : Nat → Nat) (sprite : List Nat) (x y : Nat)
    (pix2 : Nat → Nat) (coll : Bool)
    (hx : x < 256) (hy : y < 256) (hlen : sprite.length ≤ 32)
    (h : WriteSprite pix sprite x y = some (pix2, coll)) :
    (coll = true ↔ ∃ yl, yl < sprite.length ∧ ∃ xl, xl < 8 ∧
      pix (setAddr x y xl yl) = 1) := by
  rw [WriteSprite, wsRows_eq] at h
  have hpw := spriteSteps_pairwise sprite x y 0 hx hy (by omega)
  rw [runSteps_coll _ _ _ _ _ hpw h]
  constructor
  · rintro (hfalse | ⟨s, hsm, hval⟩)
    · exact absurd hfalse (by simp)
    · obtain ⟨j, hj, xl, hxl, rfl⟩ := (mem_spriteSteps sprite x y 0 s).mp hsm
      exact ⟨j, hj, xl, hxl, by simpa using hval⟩
  · rintro ⟨yl, hyl, xl, hxl, hval⟩
    refine Or.inr ⟨(setAddr x y xl (0 + yl),
      if bitOn (sprite.getD yl 0) xl then 1 else 0), ?_, ?_⟩
    · exact (mem_spriteSteps sprite x y 0 _).mpr ⟨yl, hyl, xl, hxl, rfl⟩
    · simpa using hval

/-- A step list that writes only 0 bits XORs nothing into any cell. -/
theorem xorMass_zero (i : Nat) (S : List (Nat × Nat)) (h : ∀ s ∈ S, s.2 = 0) :
    xorMass i S = 0 := by
  induction S with
  | nil => rfl
  | cons s S ih =>
    have hs : s.2 = 0 := h s (List.mem_cons_self s S)
    have ht : xorMass i S = 0 := ih (fun t htm => h t (List.mem_cons_of_mem _ htm))
    simp only [xorMass, List.foldr_cons] at ht ⊢
    rw [ht, hs]
    split_ifs <;> rfl

/--
C4, counterexample.  The all-zero one-row sprite `0x00` drawn at the
origin over a buffer whose cell 0 is lit clears nothing — the buffer
comes back unchanged — yet `WriteSprite` returns collision = true,
because `Set` reports a collision for every already-lit cell it
touches, before and regardless of the XOR.  The claim's "collision iff
a previously-set pixel was actually cleared" is therefore false here.
-/
theorem C4_collision_cex : WriteSprite pixOne0 [0] 0 0 = some (pixOne0, true) := by
  rw [WriteSprite, wsRows_eq]
  cases hres : runSteps (some (pixOne0, false)) (spriteSteps [0] 0 0 0) with
  | none =>
    have hsome : (runSteps (some (pixOne0, false)) (spriteSteps [0] 0 0 0)).isSome
        = true := rfl
    rw [hres] at hsome
    exact absurd hsome (by simp)
  | some p =>
    obtain ⟨pix2, c2⟩ := p
    have hval := runSteps_some_val _ _ _ _ _ hres
    have hc2 : c2 = true := by
      have h2 : (runSteps (some (pixOne0, false)) (spriteSteps [0] 0 0 0)).map
          Prod.snd = some true := rfl
      rw [hres] at h2
      simpa using h2
    have hm : ∀ s ∈ spriteSteps [0] 0 0 0, s.2 = 0 := by decide
    have hpix : pix2 = pixOne0 := funext fun i => by
      rw [hval i, xorMass_zero i _ hm, Nat.xor_zero]
    rw [hpix, hc2]

/-- The collision flag of the C4 witness's draw. -/
def collAfter1 : Bool :=
  match WriteSprite pixOne0 [0x80] 0 0 with
  | some p => p.2
  | none => false

/-- Witness for C4 at a concrete draw: sprite `0x80` at the origin over
a buffer whose cell 0 is lit. -/
theorem C4_collision_witness :
    collAfter1 = true ↔ ∃ yl, yl < ([0x80] : List Nat).length ∧ ∃ xl, xl < 8 ∧
      pixOne0 (setAddr 0 0 xl yl) = 1 :=
  C4_collision pixOne0 [0x80] 0 0 pixAfter1 collAfter1 (by decide) (by decide)
    (by decide) rfl

/--
C9.  The claim says clear-screen zeroes every one of the 64×32 cells,
including the last row and last column.  `EachPixel` iterates
`y < height-1`, `x < width-1`, so `Clear` never touches the last
column (cell 63 of row 0) or the last row (cell 31*64): starting from
an all-ones buffer they remain 1, while interior cells (0 and
30*64+62) are zeroed.  Moreover the CLS opcode `00E0` itself is an
empty TODO in `Dispatch` — it leaves the CPU, including its
framebuffer, completely unchanged (which does make it register-safe,
as the claim asserts).
-/
theorem C9_clear_eval :
    ClearG pixOnes 63 = 1 ∧
    ClearG pixOnes (31 * 64) = 1 ∧
    ClearG pixOnes 0 = 0 ∧
    ClearG pixOnes (30 * 64 + 62) = 0 ∧
    Dispatch cpu0 0x00E0 = Outcome.ok cpu0 := by
  refine ⟨?_, ?_, ?_, ?_, rfl⟩
  all_goals
    unfold ClearG
    rw [foldl_upd_zero]
  · rw [if_neg]
    · rfl
    · rw [mem_EachPixelAddrs]
      rintro ⟨y, hy, x, hx, he⟩
      omega
  · rw [if_neg]
    · rfl
    · rw [mem_EachPixelAddrs]
      rintro ⟨y, hy, x, hx, he⟩
      omega
  · rw [if_pos]
    rw [mem_EachPixelAddrs]
    exact ⟨0, by omega, 0, by omega, by omega⟩
  · rw [if_pos]
    rw [mem_EachPixelAddrs]
    exact ⟨30, by omega, 62, by omega, by omega⟩

/-- Witness for C3 at a concrete state: SP 0, a pre-existing value 1911
in stack slot 1, call target 0x100. -/
theorem C3_call_ret_witness :
    ∃ c1 c2,
      Dispatch cpuStk (0x2000 + 0x100) = Outcome.ok c1 ∧
      Dispatch c1 0xEE = Outcome.ok c2 ∧
      c1.Stack = upd cpuStk.Stack cpuStk.SP cpuStk.PC ∧
      c1.SP = cpuStk.SP + 1 ∧
      c1.PC = 0x100 ∧
      c2.PC = cpuStk.Stack (cpuStk.SP + 1) ∧
      c2.SP = cpuStk.SP ∧
      c2.Stack = upd cpuStk.Stack cpuStk.SP cpuStk.PC :=
  C3_call_ret cpuStk 0x100 (by decide) (by decide)
